import Mathlib

/-!
Verification of the cargo-orchestrator diagnostic parsers and the openzt-eval
Rust build scorer, shallowly embedded from the Python sources
`cargo_orchestrator/parser.py`, `cargo_orchestrator/builder.py` and
`openzt_eval/scorers.py`.
-/

/-! ## Diagnostic model (`parser.py`, `MessageLevel`, `CodeSpan`, `BuildMessage`) -/

/-- The `MessageLevel` enum from `parser.py`. -/
inductive MessageLevel where
  | error
  | warning
  | note
  | help
  | info
deriving DecidableEq, Repr

/-- The `CodeSpan` dataclass from `parser.py`. -/
structure CodeSpan where
  file_name : String
  line_start : Nat
  line_end : Nat
  column_start : Nat
  column_end : Nat
  text : Option String
deriving DecidableEq, Repr

/-- The `BuildMessage` dataclass from `parser.py` (recursive in `children`). -/
inductive BuildMessage where
  | mk (level : MessageLevel) (message : String) (code : Option String)
       (spans : List CodeSpan) (children : List BuildMessage)
       (rendered : Option String)
deriving Repr

def BuildMessage.level : BuildMessage → MessageLevel
  | .mk l _ _ _ _ _ => l

def BuildMessage.message : BuildMessage → String
  | .mk _ m _ _ _ _ => m

def BuildMessage.code : BuildMessage → Option String
  | .mk _ _ c _ _ _ => c

def BuildMessage.spans : BuildMessage → List CodeSpan
  | .mk _ _ _ s _ _ => s

def BuildMessage.children : BuildMessage → List BuildMessage
  | .mk _ _ _ _ c _ => c

def BuildMessage.rendered : BuildMessage → Option String
  | .mk _ _ _ _ _ r => r

/-! ## JSON input model for `parse_json_output`

One stdout line of `cargo build --message-format json` is, after
`json.loads`: not valid JSON at all (`json.JSONDecodeError`, the only
exception the source catches — constructor `malformed`; an empty line is
skipped by the source and behaves the same), or valid JSON that is not an
object (a number, string, list, boolean or null — then `data.get('reason')`
raises an uncaught `AttributeError`, constructor `nonObject`), or an object
(`record`).  An object's `message` field can likewise be absent (the `{}`
default of `data.get('message', {})` applies), or present but not itself an
object — including `null` — in which case `_parse_json_message` raises an
uncaught `AttributeError` at `data.get('level', '')`, or a proper message
object.  The message/span shapes below mirror exactly the fields the Python
code reads with `.get`; an absent field is `none` (or `[]` for the list
fields, where Python's falsy test makes an absent list and an empty list
indistinguishable).  Fields *inside* a message object are modelled
schema-typed: a message object whose own fields have the wrong JSON type
(say, a numeric `level` or a string `code` object) would also raise in the
source; those deeper malformations lie outside this input model. -/

/-- One element of a span's `text` list: the code reads `[0].get('text')`. -/
structure SpanText where
  text : Option String
deriving DecidableEq, Repr

/-- A decoded span object, fields as read by `_parse_span`. -/
structure SpanJson where
  file_name : Option String
  line_start : Option Nat
  line_end : Option Nat
  column_start : Option Nat
  column_end : Option Nat
  text : List SpanText
deriving DecidableEq, Repr

/-- A decoded `code` object: the code reads `data.get('code', {}).get('code')`
guarded by truthiness of `data.get('code')`; an empty object and an object
without a `code` key both yield `none`. -/
structure CodeJson where
  code : Option String
deriving DecidableEq, Repr

/-- A decoded compiler message object, fields as read by
`_parse_json_message` (recursive in `children`). -/
inductive MsgJson where
  | mk (level : Option String) (message : Option String) (code : Option CodeJson)
       (spans : List SpanJson) (children : List MsgJson)
       (rendered : Option String)
deriving Repr

def MsgJson.level : MsgJson → Option String
  | .mk l _ _ _ _ _ => l

def MsgJson.message : MsgJson → Option String
  | .mk _ m _ _ _ _ => m

def MsgJson.code : MsgJson → Option CodeJson
  | .mk _ _ c _ _ _ => c

def MsgJson.spans : MsgJson → List SpanJson
  | .mk _ _ _ s _ _ => s

def MsgJson.children : MsgJson → List MsgJson
  | .mk _ _ _ _ c _ => c

def MsgJson.rendered : MsgJson → Option String
  | .mk _ _ _ _ _ r => r

/-- The `{}` default of `data.get('message', {})`. -/
def MsgJson.empty : MsgJson := .mk none none none [] [] none

/-- The `message` field of a record as `_parse_json_message` receives it:
present but not an object (including `null` — `data.get('level', '')` then
raises `AttributeError`), or a proper message object. -/
inductive MessageField where
  | nonObject
  | obj (m : MsgJson)

/-- One decoded top-level record (envelope) of the JSON stream.  `reason`
is compared with `!= 'compiler-message'` only, so an absent, null or
non-string value all behave alike (modelled by `none` or any other
string); `message = none` models an absent key, for which the `{}` default
applies. -/
structure RecordJson where
  reason : Option String
  message : Option MessageField

/-- One stdout line: undecodable as JSON (caught and skipped), decodable
but not a JSON object (raises `AttributeError` at `data.get('reason')`),
or an object record. -/
inductive JLine where
  | malformed
  | nonObject
  | record (r : RecordJson)

/-- The text of the `AttributeError` the source raises when `.get` is
called on a non-dict value.  CPython's wording depends on the offending
value's type (for example the quoted type name differs between a null and
a numeric value); this embedding abstracts it into one constant. -/
def pyAttrErr : String := "AttributeError: object has no attribute get"

/-- ASCII lowering of a string, embedding Python's `str.lower` on the
ASCII severity strings the parser compares against. -/
def strLower (s : String) : String :=
  String.mk (s.data.map Char.toLower)

/-- The `level_map` dict of `_parse_json_message`. -/
def levelMap (s : String) : Option MessageLevel :=
  if s = "error" then some .error
  else if s = "warning" then some .warning
  else if s = "note" then some .note
  else if s = "help" then some .help
  else if s = "info" then some .info
  else none

/-- Embedding of `_parse_span` from `parser.py`: a span whose `file_name` is absent or
empty (falsy) yields `none`; otherwise missing numeric fields default to 0
and the snippet text is the first `text` element's `text` field. -/
def parse_span (sp : SpanJson) : Option CodeSpan :=
  match sp.file_name with
  | none => none
  | some f =>
    if f = "" then none
    else
      some { file_name := f
             line_start := sp.line_start.getD 0
             line_end := sp.line_end.getD 0
             column_start := sp.column_start.getD 0
             column_end := sp.column_end.getD 0
             text := match sp.text with
                     | [] => none
                     | t :: _ => t.text }

/-- Embedding of `_parse_json_message` from `parser.py`: drop the record when the lowered
level string is not in `level_map`, otherwise build the `BuildMessage`,
keeping only spans that parse and recursing into children. -/
def parse_json_message : MsgJson → Option BuildMessage
  | .mk level message code spans children rendered =>
    match levelMap (strLower (level.getD "")) with
    | none => none
    | some lvl =>
      some (.mk lvl (message.getD "")
              (code.bind CodeJson.code)
              (spans.filterMap parse_span)
              (children.attach.filterMap fun c => parse_json_message c.1)
              rendered)
termination_by m => sizeOf m
decreasing_by
  simp_wf
  have := List.sizeOf_lt_of_mem c.2
  omega

/-- The body of the per-line loop of `parse_json_output`: skip lines that
are not valid JSON (`except json.JSONDecodeError: continue`), raise on a
JSON value that is not an object, skip records whose `reason` is not
`compiler-message`, raise when the `message` field is present but not an
object, otherwise parse `data.get('message', {})`.  `Except.error` models
the uncaught `AttributeError`. -/
def parse_json_line (l : JLine) : Except String (Option BuildMessage) :=
  match l with
  | .malformed => .ok none
  | .nonObject => .error pyAttrErr
  | .record r =>
    if r.reason = some "compiler-message" then
      match r.message with
      | none => .ok (parse_json_message MsgJson.empty)
      | some .nonObject => .error pyAttrErr
      | some (.obj m) => .ok (parse_json_message m)
    else .ok none

/-- Embedding of `parse_json_output` from `parser.py`, over the decoded
line stream: the loop appends each parsed Diagnostic, and an uncaught
exception on any line aborts the whole call — the Diagnostics collected
before it are lost with it. -/
def parse_json_output : List JLine → Except String (List BuildMessage)
  | [] => .ok []
  | l :: ls =>
    match parse_json_line l with
    | .error e => .error e
    | .ok none => parse_json_output ls
    | .ok (some bm) =>
      match parse_json_output ls with
      | .error e => .error e
      | .ok msgs => .ok (bm :: msgs)

/-! ## Text-format parser (`parse_human_output`)

The two regular expressions of `parse_human_output` are embedded as
deterministic character-list matchers; both patterns are deterministic
(no backtracking can succeed where the greedy scan fails, since their
character classes exclude the following delimiter characters). -/

/-- Characters accepted by the `[A-Z0-9]` class of the header pattern. -/
def isCodeChar (c : Char) : Bool :=
  ('A' ≤ c && c ≤ 'Z') || ('0' ≤ c && c ≤ '9')

/-- Python's `\s` class on the ASCII range (space, tab, newline, vertical
tab, form feed, carriage return). -/
def isPySpace (c : Char) : Bool :=
  c = ' ' || c = '\t' || c = '\n' || c = '\r' || c.toNat = 11 || c.toNat = 12

/-- The alternation `error|warning|note|help` of the header pattern, in
source order (the four words start with distinct letters, so at most one
can match at the start of a line). -/
def headerKeywords : List String := ["error", "warning", "note", "help"]

/-- Matcher for the header pattern
`^(error|warning|note|help)(?:\[([A-Z0-9]+)\])?: (.+)$` applied to one
line.  Returns the matched keyword, the optional bracketed code and the
(nonempty) message text.  `headerTail` matches what follows the severity
keyword: an optional `[CODE]` bracket, then a colon, a space and a nonempty
message. -/
def headerTail (rest : List Char) : Option (Option String × String) :=
  match rest with
  | '[' :: r2 =>
    let codeChars := r2.takeWhile isCodeChar
    if codeChars = [] then none
    else
      match r2.drop codeChars.length with
      | ']' :: ':' :: ' ' :: msg =>
        if msg = [] then none else some (some (String.mk codeChars), String.mk msg)
      | _ => none
  | ':' :: ' ' :: msg =>
    if msg = [] then none else some (none, String.mk msg)
  | _ => none

def matchHeader (line : List Char) : Option (String × Option String × String) :=
  match headerKeywords.find? (fun kw => kw.data.isPrefixOf line) with
  | none => none
  | some kw => (headerTail (line.drop kw.data.length)).map fun x => (kw, x.1, x.2)

/-- Decimal value of a digit run, embedding Python's `int` on the strings
matched by `\d+`. -/
def natOfDigits (ds : List Char) : Nat :=
  ds.foldl (fun n c => 10 * n + (c.toNat - '0'.toNat)) 0

/-- Matcher for the location pattern `^\s*--> ([^:]+):(\d+):(\d+)$` applied
to one line.  Returns file name, line and column. -/
def matchLocation (line : List Char) : Option (String × Nat × Nat) :=
  let rest := line.dropWhile isPySpace
  if ['-', '-', '>', ' '].isPrefixOf rest then
    let r2 := rest.drop 4
    let fileChars := r2.takeWhile (fun c => !(c = ':'))
    if fileChars = [] then none
    else
      match r2.drop fileChars.length with
      | ':' :: r4 =>
        let d1 := r4.takeWhile Char.isDigit
        if d1 = [] then none
        else
          match r4.drop d1.length with
          | ':' :: r5 =>
            let d2 := r5.takeWhile Char.isDigit
            if d2 = [] || !(r5.drop d2.length = []) then none
            else some (String.mk fileChars, natOfDigits d1, natOfDigits d2)
          | _ => none
      | _ => none
  else none

/-- The `level_map` dict local to `parse_human_output` (note: no `info`
key; the `.get(level_str, MessageLevel.INFO)` default is modelled by
`hdrLevel`). -/
def levelMapHuman (s : String) : Option MessageLevel :=
  if s = "error" then some .error
  else if s = "warning" then some .warning
  else if s = "note" then some .note
  else if s = "help" then some .help
  else none

/-- Embedding of `level_map.get(level_str, MessageLevel.INFO)` from `parse_human_output`. -/
def hdrLevel (kw : String) : MessageLevel :=
  (levelMapHuman kw).getD .info

/-- The in-progress diagnostic of `parse_human_output` (`current_message`
before `rendered` is assigned). -/
structure PartialMsg where
  level : MessageLevel
  message : String
  code : Option String
  spans : List CodeSpan
deriving Repr

/-- Finalisation of a collected diagnostic: `current_message.rendered =
'\n'.join(current_text)` followed by `messages.append`. -/
def finalizeMsg (p : PartialMsg) (acc : List String) : BuildMessage :=
  .mk p.level p.message p.code p.spans [] (some (String.intercalate "\n" acc))

/-- A point span built from a matched location line (`start == end`). -/
def pointSpan (f : String) (ln col : Nat) : CodeSpan :=
  { file_name := f, line_start := ln, line_end := ln
    column_start := col, column_end := col, text := none }

/-- The line loop of `parse_human_output`:  state is the optional current
diagnostic (`current_message`) plus the accumulated raw lines
(`current_text`). -/
def humanGo (cur : Option PartialMsg) (acc : List String) :
    List String → List BuildMessage
  | [] =>
    match cur with
    | none => []
    | some p => [finalizeMsg p acc]
  | l :: ls =>
    match matchHeader l.data with
    | some (kw, code, msg) =>
      let started := humanGo (some ⟨hdrLevel kw, msg, code, []⟩) [l] ls
      match cur with
      | none => started
      | some p => finalizeMsg p acc :: started
    | none =>
      match cur with
      | none => humanGo none acc ls
      | some p =>
        match matchLocation l.data with
        | some (f, ln, col) =>
          humanGo (some { p with spans := p.spans ++ [pointSpan f ln col] }) (acc ++ [l]) ls
        | none => humanGo (some p) (acc ++ [l]) ls

/-- Embedding of `parse_human_output` on the already-split line list. -/
def parseHumanLines (lines : List String) : List BuildMessage :=
  humanGo none [] lines

/-- Embedding of `parse_human_output` from `parser.py` (`output.split('\n')` then the
line loop). -/
def parse_human_output (output : String) : List BuildMessage :=
  parseHumanLines (output.splitOn "\n")

/-! ## Builder (`builder.py`, `CargoBuilder.build` / `BuildResult`)

Process execution itself is external: an invocation either runs to
completion (with an exit code and captured output; for the structured mode
the per-line JSON decode of stdout is carried alongside the raw text) or
raises before/while starting.  The `try` block of the source also spans the
diagnostic parsing, so `except Exception` catches both launch failures
(`raised` below) and a parser crash on the captured output. -/

/-- The `BuildResult` dataclass from `builder.py`. -/
structure BuildResult where
  success : Bool
  messages : List BuildMessage
  stdout : String
  stderr : String
  return_code : Int
deriving Repr

/-- Outcome of the `subprocess.Popen` / `communicate` call. -/
inductive ProcOutcome where
  | completed (return_code : Int) (stdout : String)
      (stdout_records : List JLine) (stderr : String)
  | raised (err : String)

/-- Embedding of `CargoBuilder.build` from `builder.py`, after the command
list has been assembled: `json` format parses stdout with the structured
parser, any other format parses stderr with the text parser; when the try
body completes, success is derived from the exit code only; any exception
inside the try block — a launch failure, or an `AttributeError` escaping
the structured parser — becomes the sentinel failure result with the
exception text as stderr. -/
def cargo_build (message_format : String) (proc : ProcOutcome) : BuildResult :=
  match proc with
  | .completed rc out outRecs err =>
    match (if message_format = "json" then parse_json_output outRecs
           else .ok (parse_human_output err)) with
    | .ok messages =>
      { success := decide (rc = 0)
        messages := messages
        stdout := out
        stderr := err
        return_code := rc }
    | .error e =>
      { success := false, messages := [], stdout := "", stderr := e, return_code := -1 }
  | .raised e =>
    { success := false, messages := [], stdout := "", stderr := e, return_code := -1 }

/-! ## Substitution primitives (`str.replace`, `in`, `count`)

Python string primitives used by `_perform_substitution`, embedded over
character lists.  `str.replace` scans left to right and replaces every
non-overlapping occurrence. -/

/-- Python `str.replace` body for a nonempty pattern: leftmost-first,
non-overlapping, total scan. -/
def replaceAllL (t r : List Char) : List Char → List Char
  | [] => []
  | c :: cs =>
    if h : t ≠ [] ∧ t.isPrefixOf (c :: cs) then
      r ++ replaceAllL t r ((c :: cs).drop t.length)
    else
      c :: replaceAllL t r cs
termination_by s => s.length
decreasing_by
  · simp only [List.length_drop]
    have ht : 0 < t.length := List.length_pos.mpr h.1
    simp
    omega
  · simp

/-- Python `str.count` (non-overlapping, leftmost-first; an empty pattern
counts `len + 1` as in Python). -/
def countOccL (t : List Char) : List Char → Nat
  | [] => if t = [] then 1 else 0
  | c :: cs =>
    if h : t ≠ [] ∧ t.isPrefixOf (c :: cs) then
      1 + countOccL t ((c :: cs).drop t.length)
    else
      (if t = [] then 1 else 0) + countOccL t cs
termination_by s => s.length
decreasing_by
  · simp only [List.length_drop]
    have ht : 0 < t.length := List.length_pos.mpr h.1
    simp
    omega
  · simp

/-- The leftmost non-overlapping decomposition of a string around a
pattern: the pieces between (and around) the replaced occurrences. -/
def splitOnL (t : List Char) : List Char → List (List Char)
  | [] => [[]]
  | c :: cs =>
    if h : t ≠ [] ∧ t.isPrefixOf (c :: cs) then
      [] :: splitOnL t ((c :: cs).drop t.length)
    else
      match splitOnL t cs with
      | [] => [[c]]
      | piece :: rest => (c :: piece) :: rest
termination_by s => s.length
decreasing_by
  · simp only [List.length_drop]
    have ht : 0 < t.length := List.length_pos.mpr h.1
    simp
    omega
  · simp

/-- Python `content.replace(target, replacement)` on whole strings
(including Python's empty-pattern behaviour, which interleaves the
replacement around every character). -/
def pyReplace (s t r : String) : String :=
  if t.data = [] then
    String.mk (r.data ++ s.data.flatMap (fun c => c :: r.data))
  else
    String.mk (replaceAllL t.data r.data s.data)

/-- Python `needle in hay` on strings (substring containment). -/
def pyContains (needle hay : String) : Prop :=
  needle.data <:+: hay.data

instance (needle hay : String) : Decidable (pyContains needle hay) :=
  List.decidableInfix needle.data hay.data

/-- Python `hay.count(needle)` on strings. -/
def pyCount (needle hay : String) : Nat :=
  countOccL needle.data hay.data

/-! ## Scorer (`scorers.py`, `RustBuildScorer`)

`ScorerResult.metadata` (an audit mapping echoing the raw counts and the
test case) is not modelled: no verified property refers to it.  The
`timeout` configuration field is likewise unused by the scoring logic. -/

/-- The `ScorerResult` record from `scorers.py` (score held exactly as a rational;
the Python code computes it in floating point). -/
structure ScorerResult where
  score : ℚ
  passed : Bool
  reason : Option String
deriving Repr

/-- The `RustBuildTestCase` dataclass from `scorers.py`. -/
structure RustBuildTestCase where
  repo_url : String
  tag_or_branch : String
  file_path : String
  replacement_target : String
  description : Option String

/-- The configuration fields of `RustBuildScorer.__init__`. -/
structure ScorerConfig where
  use_clippy : Bool
  allow_warnings : Bool
  error_penalty : ℚ
  warning_penalty : ℚ
  clippy_penalty : ℚ

/-- The default penalties of `RustBuildScorer.__init__`
(use_clippy=True, allow_warnings=True, error 1.0, warning 0.1, clippy 0.05). -/
def defaultScorerConfig : ScorerConfig :=
  { use_clippy := true
    allow_warnings := true
    error_penalty := 1
    warning_penalty := 1 / 10
    clippy_penalty := 1 / 20 }

/-- Embedding of `sum(1 for msg in msgs if msg.level == lvl)`. -/
def countLevel (lvl : MessageLevel) (msgs : List BuildMessage) : Nat :=
  (msgs.filter fun m => decide (m.level = lvl)).length

/-- Embedding of `sum(1 for msg in msgs if msg.code and "clippy::" in msg.code)`. -/
def countClippyLints (msgs : List BuildMessage) : Nat :=
  (msgs.filter fun m =>
    match m.code with
    | none => false
    | some c => decide (pyContains "clippy::" c)).length

/-- Embedding of `RustBuildScorer._calculate_score` from `scorers.py`: count top-level
errors/warnings of both runs and clippy-namespaced lint codes of the lint
run, apply the linear penalties to 1.0, clamp to [0, 1], and derive the
pass verdict from the two success flags and the warning policy. -/
def calculate_score (cfg : ScorerConfig) (build_result : BuildResult)
    (clippy_result : Option BuildResult) : ScorerResult :=
  let build_errors := countLevel .error build_result.messages
  let build_warnings := countLevel .warning build_result.messages
  let clippy_errors := match clippy_result with
    | some cr => countLevel .error cr.messages
    | none => 0
  let clippy_warnings := match clippy_result with
    | some cr => countLevel .warning cr.messages
    | none => 0
  let clippy_lints := match clippy_result with
    | some cr => countClippyLints cr.messages
    | none => 0
  let total_errors := build_errors + clippy_errors
  let total_warnings := build_warnings + clippy_warnings
  let score0 : ℚ :=
    1 - total_errors * cfg.error_penalty - total_warnings * cfg.warning_penalty
      - clippy_lints * cfg.clippy_penalty
  let score := max 0 (min 1 score0)
  let build_passed := build_result.success
  let clippy_passed := match clippy_result with
    | some cr => cr.success
    | none => true
  let passed := build_passed && clippy_passed
    && (cfg.allow_warnings || decide (total_warnings = 0))
  let reason_parts : List String :=
    (if build_passed then [] else
      ["Build failed with " ++ toString build_errors ++ " errors"])
    ++ (if clippy_passed then [] else
      ["Clippy failed with " ++ toString clippy_errors ++ " errors"])
    ++ (if total_warnings > 0 then
      [toString total_warnings ++ " warnings"] else [])
    ++ (if clippy_lints > 0 then
      [toString clippy_lints ++ " clippy lints"] else [])
  let reason :=
    if reason_parts = [] then "Build and clippy passed successfully"
    else String.intercalate "; " reason_parts
  { score := score, passed := passed, reason := some reason }

/-- Embedding of `RustBuildScorer._perform_substitution` from `scorers.py` as a fallible
step: raising `ValueError` is modelled as returning `Except.error` with the
exception's message text. -/
def perform_substitution (file_path replacement_target content response : String) :
    Except String String :=
  if pyContains replacement_target content then
    .ok (pyReplace content replacement_target response)
  else
    .error ("Replacement target not found in " ++ file_path ++ ": "
      ++ replacement_target)

/-! ## Evaluation pipeline (`RustBuildScorer._evaluate_with_test_case`)

Repository cloning is an external collaborator; the environment below gives
the state the pipeline observes: whether the target file exists, its
content, and the `BuildResult` the orchestrator would return for the build
and for the clippy run.  The trace records which toolchain invocations
actually happened. -/

/-- The externally observable state of one evaluation. -/
structure EvalEnv where
  file_exists : Bool
  content : String
  build_result : BuildResult
  clippy_result : BuildResult

/-- The pipeline's result plus which toolchain invocations were made. -/
structure EvalTrace where
  result : ScorerResult
  build_invoked : Bool
  clippy_invoked : Bool

/-- Embedding of `RustBuildScorer._evaluate_with_test_case` from `scorers.py`: check the
target file exists, substitute (a `ValueError` is caught by the
`except Exception` boundary and becomes a score-0 failed result whose
reason wraps the exception text), then always run the build, run clippy
only when configured, and score. -/
def evaluate_with_test_case (cfg : ScorerConfig) (tc : RustBuildTestCase)
    (env : EvalEnv) (response : String) : EvalTrace :=
  if env.file_exists = false then
    { result := { score := 0, passed := false
                  reason := some ("Target file not found: " ++ tc.file_path) }
      build_invoked := false
      clippy_invoked := false }
  else
    match perform_substitution tc.file_path tc.replacement_target env.content response with
    | .error e =>
      { result := { score := 0, passed := false
                    reason := some ("Evaluation failed: " ++ e) }
        build_invoked := false
        clippy_invoked := false }
    | .ok _ =>
      { result := calculate_score cfg env.build_result
          (if cfg.use_clippy then some env.clippy_result else none)
        build_invoked := true
        clippy_invoked := cfg.use_clippy }

/-! ## Example values used in concrete scenarios -/

/-- The `error[E0425]` record of the spec scenario, as parsed. -/
def errMsgE0425 : BuildMessage :=
  .mk .error "cannot find value `x` in this scope" (some "E0425") [] [] none

/-- The `warning[unused_variables]` record of the spec scenario, as parsed. -/
def warnMsgUnused : BuildMessage :=
  .mk .warning "unused variable" (some "unused_variables") [] [] none

/-- A failed build carrying one error and one warning diagnostic. -/
def scenarioBuildResult : BuildResult :=
  { success := false, messages := [errMsgE0425, warnMsgUnused]
    stdout := "", stderr := "", return_code := 101 }

/-- An empty, successful build. -/
def emptyOkBuildResult : BuildResult :=
  { success := true, messages := [], stdout := "", stderr := "", return_code := 0 }

/-- A successful clippy run with one clippy-namespaced warning finding. -/
def clippyLintWarnResult : BuildResult :=
  { success := true
    messages := [.mk .warning "this borrow is needless" (some "clippy::needless_borrow") [] [] none]
    stdout := "", stderr := "", return_code := 0 }

/-! ## Shared lemmas about `calculate_score` -/

/-- Closed form of the score computed by `calculate_score`. -/
theorem calculate_score_score_eq (cfg : ScorerConfig) (b : BuildResult)
    (c : Option BuildResult) :
    (calculate_score cfg b c).score =
      max 0 (min 1
        (1 - cfg.error_penalty *
              ((countLevel .error b.messages
                + c.elim 0 (fun cr => countLevel .error cr.messages) : ℕ) : ℚ)
           - cfg.warning_penalty *
              ((countLevel .warning b.messages
                + c.elim 0 (fun cr => countLevel .warning cr.messages) : ℕ) : ℚ)
           - cfg.clippy_penalty *
              ((c.elim 0 (fun cr => countClippyLints cr.messages) : ℕ) : ℚ))) := by
  cases c <;>
    · simp only [calculate_score, Option.elim]
      congr 2
      push_cast
      ring

/-- Closed form of the pass verdict computed by `calculate_score`. -/
theorem calculate_score_passed_eq (cfg : ScorerConfig) (b : BuildResult)
    (c : Option BuildResult) :
    (calculate_score cfg b c).passed =
      (b.success && c.elim true BuildResult.success
        && (cfg.allow_warnings
            || decide (countLevel .warning b.messages
                + c.elim 0 (fun cr => countLevel .warning cr.messages) = 0))) := by
  cases c <;> simp [calculate_score, Option.elim]

/-! ## Claims about the scorer -/

/-- C1: for every pair of build and optional lint diagnostic lists and every
penalty configuration, the computed score is 1.0 minus errorPenalty times the
total top-level errors (build plus lint), minus warningPenalty times the total
top-level warnings (build plus lint), minus lintFindingPenalty times the number
of lint-run diagnostics whose code carries the `clippy::` namespace marker,
clamped to [0, 1]; a clippy warning with a clippy-namespaced code is counted by
both the warning penalty and the lint penalty; and the spec scenario (one
error, one warning, default penalties, no lint run) scores 0. -/
theorem score_formula_and_scenario :
    (∀ (cfg : ScorerConfig) (b : BuildResult) (c : Option BuildResult),
      (calculate_score cfg b c).score =
        max 0 (min 1
          (1 - cfg.error_penalty *
                ((countLevel .error b.messages
                  + c.elim 0 (fun cr => countLevel .error cr.messages) : ℕ) : ℚ)
             - cfg.warning_penalty *
                ((countLevel .warning b.messages
                  + c.elim 0 (fun cr => countLevel .warning cr.messages) : ℕ) : ℚ)
             - cfg.clippy_penalty *
                ((c.elim 0 (fun cr => countClippyLints cr.messages) : ℕ) : ℚ))))
    ∧ (calculate_score defaultScorerConfig scenarioBuildResult none).score = 0
    ∧ (calculate_score defaultScorerConfig emptyOkBuildResult
        (some clippyLintWarnResult)).score = 1 - 1/10 - 1/20 := by
  refine ⟨calculate_score_score_eq, ?_, ?_⟩
  · rw [calculate_score_score_eq]
    have he : countLevel .error scenarioBuildResult.messages = 1 := by decide
    have hw : countLevel .warning scenarioBuildResult.messages = 1 := by decide
    rw [he, hw]
    norm_num [defaultScorerConfig, min_def, max_def]
  · rw [calculate_score_score_eq]
    have he : countLevel .error emptyOkBuildResult.messages = 0 := by decide
    have hw : countLevel .warning emptyOkBuildResult.messages = 0 := by decide
    have hce : countLevel .error clippyLintWarnResult.messages = 0 := by decide
    have hcw : countLevel .warning clippyLintWarnResult.messages = 1 := by decide
    have hcl : countClippyLints clippyLintWarnResult.messages = 1 := by decide
    rw [he, hw]
    simp only [Option.elim, hce, hcw, hcl]
    norm_num [defaultScorerConfig, min_def, max_def]

/-- C2: the pass verdict is true exactly when the build success flag is true,
the lint success flag is true (or lint was not run), and either warnings are
allowed or the total top-level warning count across build and lint is zero;
the flags are the `BuildResult.success` values, not recomputed from counts
(a successful flag with an error diagnostic still passes). -/
theorem pass_verdict :
    (∀ (cfg : ScorerConfig) (b : BuildResult) (c : Option BuildResult),
      (calculate_score cfg b c).passed =
        (b.success && c.elim true BuildResult.success
          && (cfg.allow_warnings
              || decide (countLevel .warning b.messages
                  + c.elim 0 (fun cr => countLevel .warning cr.messages) = 0))))
    ∧ (calculate_score defaultScorerConfig
        { success := false, messages := [], stdout := "", stderr := "", return_code := 7 }
        none).passed = false
    ∧ (calculate_score defaultScorerConfig
        { success := true, messages := [errMsgE0425], stdout := "", stderr := "", return_code := 0 }
        none).passed = true := by
  refine ⟨calculate_score_passed_eq,
    by norm_num [calculate_score, defaultScorerConfig], ?_⟩
  norm_num [calculate_score, defaultScorerConfig, countLevel, errMsgE0425,
    BuildMessage.level, List.filter]

/-- C9 (counterexample): a structured-mode invocation whose process exits
with code 0 but whose stdout holds a JSON-valid non-object line is caught
by the builder's `except Exception` and returns success false with exit
code -1 — so success is not true exactly when the process exit code is
zero.  The same invocation with clean output succeeds. -/
theorem builder_success_counterexample :
    (cargo_build "json" (ProcOutcome.completed 0 "42" [JLine.nonObject] "")).success
      = false ∧
    (cargo_build "json" (ProcOutcome.completed 0 "42" [JLine.nonObject] "")).return_code
      = -1 ∧
    (cargo_build "json" (ProcOutcome.completed 0 "" [] "")).success = true := by
  exact ⟨rfl, rfl, rfl⟩

/-- C9 (amended): when the try body completes — the process ran and its
diagnostics parsed without raising (always the case in human mode) — the
success flag is exactly (exit code = 0) and the captured output is
returned; a nonzero exit always implies success false on every path; the
returned success flag always agrees with the returned exit code being
zero; and a launch failure, or any exception inside the try block such as
the structured parser's `AttributeError`, yields the sentinel result
(success false, no diagnostics, exit code -1, the failure text as stderr)
instead of propagating. -/
theorem builder_success_amended :
    (∀ (rc : Int) (out : String) (recs : List JLine) (err : String)
        (msgs : List BuildMessage), parse_json_output recs = .ok msgs →
      cargo_build "json" (.completed rc out recs err)
        = { success := decide (rc = 0), messages := msgs, stdout := out
            stderr := err, return_code := rc }) ∧
    (∀ (fmt : String) (rc : Int) (out : String) (recs : List JLine) (err : String),
      fmt ≠ "json" →
      cargo_build fmt (.completed rc out recs err)
        = { success := decide (rc = 0), messages := parse_human_output err
            stdout := out, stderr := err, return_code := rc }) ∧
    (∀ (fmt : String) (rc : Int) (out : String) (recs : List JLine) (err : String),
      rc ≠ 0 → (cargo_build fmt (.completed rc out recs err)).success = false) ∧
    (∀ (fmt : String) (proc : ProcOutcome),
      ((cargo_build fmt proc).success = true ↔ (cargo_build fmt proc).return_code = 0)) ∧
    (∀ (rc : Int) (out : String) (recs : List JLine) (err e : String),
      parse_json_output recs = .error e →
      cargo_build "json" (.completed rc out recs err)
        = { success := false, messages := [], stdout := ""
            stderr := e, return_code := -1 }) ∧
    (∀ (fmt e : String),
      cargo_build fmt (.raised e) =
        { success := false, messages := [], stdout := "", stderr := e
          return_code := -1 }) := by
  refine ⟨?_, ?_, ?_, ?_, ?_, ?_⟩
  · intro rc out recs err msgs hp
    simp [cargo_build, hp]
  · intro fmt rc out recs err hf
    simp [cargo_build, hf]
  · intro fmt rc out recs err hrc
    by_cases hf : fmt = "json"
    · subst hf
      rcases hp : parse_json_output recs with e | msgs <;>
        simp [cargo_build, hp, hrc]
    · simp [cargo_build, hf, hrc]
  · intro fmt proc
    cases proc with
    | raised e => simp [cargo_build]
    | completed rc out recs err =>
      by_cases hf : fmt = "json"
      · subst hf
        rcases hp : parse_json_output recs with e | msgs <;>
          simp [cargo_build, hp]
      · simp [cargo_build, hf]
  · intro rc out recs err e hp
    simp [cargo_build, hp]
  · intro fmt e
    rfl

/-- Witness for the amended C9 at concrete invocations. -/
theorem builder_success_amended_witness :
    cargo_build "json" (.completed 0 "progress line" [JLine.malformed] "")
      = { success := true, messages := [], stdout := "progress line"
          stderr := "", return_code := 0 } ∧
    cargo_build "json" (.completed 0 "null" [JLine.nonObject] "")
      = { success := false, messages := [], stdout := ""
          stderr := pyAttrErr, return_code := -1 } ∧
    cargo_build "human" (.completed 3 "" [] "")
      = { success := false, messages := parse_human_output "", stdout := ""
          stderr := "", return_code := 3 } := by
  refine ⟨?_, ?_, ?_⟩
  · exact builder_success_amended.1 0 "progress line" [JLine.malformed] "" [] rfl
  · exact builder_success_amended.2.2.2.2.1 0 "null" [JLine.nonObject] "" pyAttrErr rfl
  · rw [builder_success_amended.2.1 "human" 3 "" [] "" (by decide)]
    simp

/-! ## Claims about the evaluation pipeline -/

/-- A substring of the left part of a concatenation is a substring of the
whole. -/
theorem pyContains_append_left (n a b : String) (h : pyContains n a) :
    pyContains n (a ++ b) := by
  unfold pyContains at h ⊢
  rw [String.data_append]
  exact h.trans (List.prefix_append a.data b.data).isInfix

/-- A substring of the right part of a concatenation is a substring of the
whole. -/
theorem pyContains_append_right (n a b : String) (h : pyContains n b) :
    pyContains n (a ++ b) := by
  unfold pyContains at h ⊢
  rw [String.data_append]
  exact h.trans (List.suffix_append a.data b.data).isInfix

/-- C8: when the target substring is absent from the file content, the
pipeline returns score 0, not passed, with a reason mentioning "not found",
and neither the build nor the lint toolchain invocation occurs; the
`ValueError` is absorbed at the pipeline boundary (the pipeline is a total
function into `EvalTrace`). -/
theorem target_absent_scores_zero (cfg : ScorerConfig) (tc : RustBuildTestCase)
    (env : EvalEnv) (resp : String) (hex : env.file_exists = true)
    (habs : ¬ pyContains tc.replacement_target env.content) :
    (evaluate_with_test_case cfg tc env resp).build_invoked = false ∧
    (evaluate_with_test_case cfg tc env resp).clippy_invoked = false ∧
    (evaluate_with_test_case cfg tc env resp).result.score = 0 ∧
    (evaluate_with_test_case cfg tc env resp).result.passed = false ∧
    ∃ r, (evaluate_with_test_case cfg tc env resp).result.reason = some r ∧
      pyContains "not found" r := by
  have hsub : perform_substitution tc.file_path tc.replacement_target env.content resp
      = .error ("Replacement target not found in " ++ tc.file_path ++ ": "
          ++ tc.replacement_target) := by
    simp [perform_substitution, habs]
  have hT : evaluate_with_test_case cfg tc env resp =
      { result := { score := 0, passed := false
                    reason := some ("Evaluation failed: "
                      ++ ("Replacement target not found in " ++ tc.file_path ++ ": "
                          ++ tc.replacement_target)) }
        build_invoked := false
        clippy_invoked := false } := by
    simp [evaluate_with_test_case, hex, hsub]
  rw [hT]
  refine ⟨rfl, rfl, rfl, rfl, ⟨_, rfl, ?_⟩⟩
  have h0 : pyContains "not found" "Replacement target not found in " := by decide
  exact pyContains_append_right _ _ _
    (pyContains_append_left _ _ _
      (pyContains_append_left _ _ _
        (pyContains_append_left _ _ _ h0)))

/-- An evaluation request whose target is present in `exEnvBuildFailed`. -/
def exTestCase : RustBuildTestCase :=
  { repo_url := "https://github.com/openztcc/openzt"
    tag_or_branch := "main"
    file_path := "src/lib.rs"
    replacement_target := "// TODO: implement"
    description := some "demo case" }

/-- An environment whose build failed but whose clippy run succeeded with
one clippy finding. -/
def exEnvBuildFailed : EvalEnv :=
  { file_exists := true
    content := "fn main() with // TODO: implement inside"
    build_result := scenarioBuildResult
    clippy_result := clippyLintWarnResult }

/-- An environment whose file content does not contain the target. -/
def exEnvNoTarget : EvalEnv :=
  { file_exists := true
    content := "fn main() empty body"
    build_result := scenarioBuildResult
    clippy_result := clippyLintWarnResult }

/-- Witness for C8 at a concrete input. -/
theorem target_absent_scores_zero_witness :
    exEnvNoTarget.file_exists = true ∧
    ¬ pyContains exTestCase.replacement_target exEnvNoTarget.content ∧
    (evaluate_with_test_case defaultScorerConfig exTestCase exEnvNoTarget
      "fn f() done").build_invoked = false ∧
    (evaluate_with_test_case defaultScorerConfig exTestCase exEnvNoTarget
      "fn f() done").result.score = 0 ∧
    ∃ r, (evaluate_with_test_case defaultScorerConfig exTestCase exEnvNoTarget
      "fn f() done").result.reason = some r ∧ pyContains "not found" r := by
  have h := target_absent_scores_zero defaultScorerConfig exTestCase exEnvNoTarget
    "fn f() done" (by decide) (by decide)
  exact ⟨by decide, by decide, h.1, h.2.2.1, h.2.2.2.2⟩

/-- C10: with lint enabled, the lint invocation happens and its counts enter
the penalty formula and the verdict even when the build failed: the build
does not short-circuit the lint run. -/
theorem lint_runs_when_build_fails (cfg : ScorerConfig) (tc : RustBuildTestCase)
    (env : EvalEnv) (resp : String) (hclip : cfg.use_clippy = true)
    (hex : env.file_exists = true)
    (htgt : pyContains tc.replacement_target env.content)
    (hfail : env.build_result.success = false) :
    (evaluate_with_test_case cfg tc env resp).clippy_invoked = true ∧
    (evaluate_with_test_case cfg tc env resp).build_invoked = true ∧
    (evaluate_with_test_case cfg tc env resp).result =
      calculate_score cfg env.build_result (some env.clippy_result) ∧
    (evaluate_with_test_case cfg tc env resp).result.score =
      max 0 (min 1
        (1 - cfg.error_penalty *
              ((countLevel .error env.build_result.messages
                + countLevel .error env.clippy_result.messages : ℕ) : ℚ)
           - cfg.warning_penalty *
              ((countLevel .warning env.build_result.messages
                + countLevel .warning env.clippy_result.messages : ℕ) : ℚ)
           - cfg.clippy_penalty *
              ((countClippyLints env.clippy_result.messages : ℕ) : ℚ))) ∧
    (evaluate_with_test_case cfg tc env resp).result.passed = false := by
  have hsub : perform_substitution tc.file_path tc.replacement_target env.content resp
      = .ok (pyReplace env.content tc.replacement_target resp) := by
    simp [perform_substitution, htgt]
  have hT : evaluate_with_test_case cfg tc env resp =
      { result := calculate_score cfg env.build_result (some env.clippy_result)
        build_invoked := true
        clippy_invoked := true } := by
    simp [evaluate_with_test_case, hex, hsub, hclip]
  rw [hT]
  refine ⟨rfl, rfl, rfl, ?_, ?_⟩
  · rw [calculate_score_score_eq]
    rfl
  · rw [calculate_score_passed_eq, hfail]
    rfl

/-- Witness for C10 at a concrete input. -/
theorem lint_runs_when_build_fails_witness :
    defaultScorerConfig.use_clippy = true ∧
    exEnvBuildFailed.build_result.success = false ∧
    (evaluate_with_test_case defaultScorerConfig exTestCase exEnvBuildFailed
      "fn f() done").clippy_invoked = true ∧
    (evaluate_with_test_case defaultScorerConfig exTestCase exEnvBuildFailed
      "fn f() done").result =
      calculate_score defaultScorerConfig exEnvBuildFailed.build_result
        (some exEnvBuildFailed.clippy_result) ∧
    (evaluate_with_test_case defaultScorerConfig exTestCase exEnvBuildFailed
      "fn f() done").result.passed = false := by
  have h := lint_runs_when_build_fails defaultScorerConfig exTestCase exEnvBuildFailed
    "fn f() done" rfl rfl (by decide) rfl
  exact ⟨rfl, rfl, h.1, h.2.2.1, h.2.2.2.2⟩

/-! ## Claim about the substitution step -/

/-- Join a list of pieces with a separator between consecutive pieces. -/
def joinWithL (sep : List Char) : List (List Char) → List Char
  | [] => []
  | [x] => x
  | x :: y :: xs => x ++ sep ++ joinWithL sep (y :: xs)

/-- A split never produces an empty piece list. -/
theorem splitOnL_ne_nil (t s : List Char) : splitOnL t s ≠ [] := by
  cases s with
  | nil => simp [splitOnL]
  | cons c cs =>
    rw [splitOnL]
    split
    · simp
    · split <;> simp

/-- Python `str.replace` joins the leftmost non-overlapping decomposition of the
subject around the pattern with the replacement. -/
theorem replaceAllL_eq_joinWith (t r s : List Char) :
    replaceAllL t r s = joinWithL r (splitOnL t s) := by
  induction s using splitOnL.induct t with
  | case1 => simp [replaceAllL, splitOnL, joinWithL]
  | case2 c cs h ih =>
    rw [replaceAllL, splitOnL, dif_pos h, dif_pos h, ih]
    rcases hsp : splitOnL t (List.drop t.length (c :: cs)) with _ | ⟨p, rest⟩
    · exact absurd hsp (splitOnL_ne_nil t _)
    · simp [joinWithL]
  | case3 c cs h hnil ih =>
    exact absurd hnil (splitOnL_ne_nil t cs)
  | case4 c cs h p rest hsp ih =>
    rw [replaceAllL, splitOnL, dif_neg h, dif_neg h, ih, hsp]
    rcases rest with _ | ⟨q, qs⟩
    · simp [joinWithL]
    · simp [joinWithL]

/-- The decomposition has one piece more than there are occurrences. -/
theorem splitOnL_length (t : List Char) (ht : t ≠ []) (s : List Char) :
    (splitOnL t s).length = countOccL t s + 1 := by
  induction s using splitOnL.induct t with
  | case1 => simp [splitOnL, countOccL, ht]
  | case2 c cs h ih =>
    rw [splitOnL, countOccL, dif_pos h, dif_pos h]
    simp [ih]
    omega
  | case3 c cs h hnil ih =>
    exact absurd hnil (splitOnL_ne_nil t cs)
  | case4 c cs h p rest hsp ih =>
    rw [splitOnL, countOccL, dif_neg h, dif_neg h, hsp]
    rw [hsp] at ih
    simp at ih ⊢
    simp [ht, ih]

/-- C7 (counterexample): at content `aabb`, target `ab`, candidate `a` — a
candidate that does not contain the target — the substituted file still
contains one occurrence of the target and two occurrences of the
candidate, not zero and N = 1 as claimed. -/
theorem substitution_counterexample :
    pyContains "ab" "aabb" ∧
    pyCount "ab" "aabb" = 1 ∧
    ¬ pyContains "ab" "a" ∧
    pyReplace "aabb" "ab" "a" = "aab" ∧
    pyCount "ab" (pyReplace "aabb" "ab" "a") = 1 ∧
    pyCount "a" (pyReplace "aabb" "ab" "a") = 2 := by
  have hrep : pyReplace "aabb" "ab" "a" = "aab" := by
    simp [pyReplace, replaceAllL.eq_def]
  refine ⟨by decide, ?_, by decide, hrep, ?_, ?_⟩
  · simp [pyCount, countOccL.eq_def]
  · rw [hrep]
    simp [pyCount, countOccL.eq_def]
  · rw [hrep]
    simp [pyCount, countOccL.eq_def]

/-- C7 (amended): for a nonempty target, the substitution step rewrites the
file content to the leftmost non-overlapping decomposition of the content
around the target, rejoined with the candidate text — so every one of the
`pyCount` occurrences is replaced in one pass, not just the first.  (The
original claim's conclusions — zero remaining targets and exactly N
candidate occurrences — can fail when replacement seams recreate either
string, see the counterexample.) -/
theorem substitution_replaces_all (content target cand : String)
    (ht : target.data ≠ []) :
    pyReplace content target cand
      = String.mk (joinWithL cand.data (splitOnL target.data content.data)) ∧
    (splitOnL target.data content.data).length = pyCount target content + 1 := by
  constructor
  · simp [pyReplace, ht, replaceAllL_eq_joinWith]
  · simp [pyCount, splitOnL_length _ ht]

/-- Witness for the amended C7 at a concrete input. -/
theorem substitution_replaces_all_witness :
    ("ab" : String).data ≠ [] ∧
    pyCount "ab" "xabyabz" = 2 ∧
    pyReplace "xabyabz" "ab" "Q"
      = String.mk (joinWithL "Q".data (splitOnL "ab".data "xabyabz".data)) ∧
    (splitOnL "ab".data "xabyabz".data).length = pyCount "ab" "xabyabz" + 1 := by
  have h := substitution_replaces_all "xabyabz" "ab" "Q" (by decide)
  refine ⟨by decide, ?_, h.1, h.2⟩
  simp [pyCount, countOccL.eq_def]

/-! ## Claims about span decoding and severity handling -/

/-- One-step unfolding of `parse_json_message` on a constructor. -/
theorem parse_json_message_mk (lv ms : Option String) (cd : Option CodeJson)
    (sp : List SpanJson) (ch : List MsgJson) (rd : Option String) :
    parse_json_message (.mk lv ms cd sp ch rd) =
      match levelMap (strLower (lv.getD "")) with
      | none => none
      | some lvl =>
        some (.mk lvl (ms.getD "") (cd.bind CodeJson.code)
          (sp.filterMap parse_span)
          (ch.attach.filterMap fun c => parse_json_message c.1) rd) := by
  rw [parse_json_message.eq_def]

/-- A span object carrying positions but no file name. -/
def spanNoFileName : SpanJson :=
  { file_name := none, line_start := some 3, line_end := some 3
    column_start := some 5, column_end := some 7, text := [] }

/-- A compiler message with one attached span lacking a file name. -/
def msgWithSpanNoFileName : MsgJson :=
  .mk (some "error") (some "boom") none [spanNoFileName] [] none

/-- C4 (counterexample): a span object without a file name attached to a
compiler-message record yields a Diagnostic whose span list is empty — the
span is omitted rather than kept with defaulted fields. -/
theorem span_defaults_counterexample :
    msgWithSpanNoFileName.spans.length = 1 ∧
    parse_span spanNoFileName = none ∧
    (parse_json_message msgWithSpanNoFileName).map BuildMessage.spans = some [] := by
  refine ⟨rfl, rfl, ?_⟩
  rw [show msgWithSpanNoFileName
      = MsgJson.mk (some "error") (some "boom") none [spanNoFileName] [] none from rfl,
    parse_json_message_mk]
  have hlv : levelMap (strLower "error") = some MessageLevel.error := by decide
  simp [hlv, parse_span, spanNoFileName, BuildMessage.spans]

/-- C4 (amended): a span object with a present, nonempty file name is kept,
with absent line/column fields defaulted to 0 and absent snippet text to
none; a span object with an absent or empty file name yields no CodeSpan and
is omitted from the Diagnostic's span list, which is exactly the list of
spans that parse. -/
theorem span_defaults_amended :
    (∀ (sp : SpanJson) (f : String), sp.file_name = some f → f ≠ "" →
      parse_span sp = some
        { file_name := f
          line_start := sp.line_start.getD 0
          line_end := sp.line_end.getD 0
          column_start := sp.column_start.getD 0
          column_end := sp.column_end.getD 0
          text := match sp.text with | [] => none | t :: _ => t.text }) ∧
    (∀ sp : SpanJson, sp.file_name = none ∨ sp.file_name = some "" →
      parse_span sp = none) ∧
    (∀ (m : MsgJson) (bm : BuildMessage), parse_json_message m = some bm →
      bm.spans = m.spans.filterMap parse_span) := by
  refine ⟨?_, ?_, ?_⟩
  · intro sp f hf hne
    simp [parse_span, hf, hne]
  · rintro sp (hf | hf) <;> simp [parse_span, hf]
  · intro m bm h
    cases m with
    | mk lv ms cd sp ch rd =>
      rw [parse_json_message_mk] at h
      split at h
      · exact absurd h (by simp)
      · rw [Option.some.injEq] at h
        subst h
        rfl

/-- Witness for the amended C4 at concrete spans. -/
theorem span_defaults_amended_witness :
    parse_span { file_name := some "src/lib.rs", line_start := none, line_end := none
                 column_start := none, column_end := none, text := [] }
      = some { file_name := "src/lib.rs", line_start := 0, line_end := 0
               column_start := 0, column_end := 0, text := none } ∧
    parse_span spanNoFileName = none := by
  exact ⟨span_defaults_amended.1 _ "src/lib.rs" rfl (by decide),
    span_defaults_amended.2.1 spanNoFileName (Or.inl rfl)⟩

/-- A successful header match returns one of the four keywords of the
alternation. -/
theorem matchHeader_kw_mem (l : List Char) (kw : String) (code : Option String)
    (msg : String) (h : matchHeader l = some (kw, code, msg)) :
    kw ∈ headerKeywords := by
  unfold matchHeader at h
  rcases hf : headerKeywords.find? (fun k => k.data.isPrefixOf l) with _ | k
  · rw [hf] at h
    exact absurd h (by simp)
  · rw [hf] at h
    have hk : k ∈ headerKeywords := List.mem_of_find?_eq_some hf
    simp only [Option.map_eq_some'] at h
    obtain ⟨a, -, h2⟩ := h
    cases h2
    exact hk

/-- The level assigned to any of the four header keywords is never `info`
(the `info` default of the level map is unreachable). -/
theorem hdrLevel_ne_info (kw : String) (hk : kw ∈ headerKeywords) :
    hdrLevel kw ≠ .info := by
  simp only [headerKeywords, List.mem_cons, List.not_mem_nil, or_false] at hk
  rcases hk with rfl | rfl | rfl | rfl <;> decide

/-- Every message emitted by the text-parser loop has one of the four
recognized levels, provided the in-progress message does. -/
theorem humanGo_level_ne_info (lines : List String) :
    ∀ (cur : Option PartialMsg) (acc : List String) (bm : BuildMessage),
      (∀ p, cur = some p → p.level ≠ .info) →
      bm ∈ humanGo cur acc lines → bm.level ≠ .info := by
  induction lines with
  | nil =>
    intro cur acc bm hcur hmem
    cases cur with
    | none => simp [humanGo] at hmem
    | some p =>
      simp only [humanGo, List.mem_singleton] at hmem
      subst hmem
      simpa [finalizeMsg, BuildMessage.level] using hcur p rfl
  | cons l ls ih =>
    intro cur acc bm hcur hmem
    rcases hh : matchHeader l.data with _ | ⟨kw, code, msg⟩
    · simp only [humanGo, hh] at hmem
      cases cur with
      | none => exact ih none acc bm (by simp) hmem
      | some p =>
        rcases hloc : matchLocation l.data with _ | ⟨f, ln, col⟩
        · simp only [hloc] at hmem
          refine ih _ _ bm ?_ hmem
          rintro q hq
          rw [Option.some.injEq] at hq
          subst hq
          exact hcur p rfl
        · simp only [hloc] at hmem
          refine ih _ _ bm ?_ hmem
          rintro q hq
          rw [Option.some.injEq] at hq
          subst hq
          exact hcur p rfl
    · simp only [humanGo, hh] at hmem
      have hnew : ∀ q : PartialMsg,
          some (⟨hdrLevel kw, msg, code, []⟩ : PartialMsg) = some q → q.level ≠ .info := by
        rintro q hq
        rw [Option.some.injEq] at hq
        subst hq
        exact hdrLevel_ne_info kw (matchHeader_kw_mem l.data kw code msg hh)
      cases cur with
      | none => exact ih _ _ bm hnew hmem
      | some p =>
        rcases List.mem_cons.mp hmem with rfl | hmem2
        · simpa [finalizeMsg, BuildMessage.level] using hcur p rfl
        · exact ih _ _ bm hnew hmem2

/-- C5 (counterexample): a line whose severity word is outside the closed
enumeration (`fatal`) does not match the text parser's header pattern and
yields no Diagnostic at all — in particular no `info` Diagnostic. -/
theorem unknown_severity_counterexample :
    matchHeader ("fatal: boom").data = none ∧
    parseHumanLines ["fatal: boom"] = [] := ⟨rfl, rfl⟩

/-- C5 (amended): the structured parser drops a message whose lowered
severity is not in the level map (children included, since no Diagnostic is
built at all); the text parser's header pattern recognizes only
error/warning/note/help, so a header line with any other severity produces
no Diagnostic and the `info` fallback of its level map is unreachable: no
text-derived Diagnostic ever has severity `info`. -/
theorem unknown_severity_amended :
    (∀ m : MsgJson, levelMap (strLower (m.level.getD "")) = none →
      parse_json_message m = none) ∧
    (∀ (lines : List String) (bm : BuildMessage),
      bm ∈ parseHumanLines lines → bm.level ≠ .info) := by
  constructor
  · intro m h
    cases m with
    | mk lv ms cd sp ch rd =>
      rw [parse_json_message_mk]
      simp only [MsgJson.level] at h
      simp [h]
  · intro lines bm hmem
    exact humanGo_level_ne_info lines none [] bm (by simp) hmem

/-- Witness for the amended C5 at concrete inputs. -/
theorem unknown_severity_amended_witness :
    parse_json_message (.mk (some "fatal") (some "boom") none [] [] none) = none ∧
    (BuildMessage.mk .warning "w" none [] [] (some "warning: w")).level ≠ .info := by
  constructor
  · exact unknown_severity_amended.1 _ (by decide)
  · refine unknown_severity_amended.2 ["warning: w"] _ ?_
    have e : parseHumanLines ["warning: w"]
        = [BuildMessage.mk .warning "w" none [] [] (some "warning: w")] := rfl
    rw [e]
    exact List.mem_singleton.mpr rfl

/-! ## Claim about the structured parser's stream behaviour -/

/-- A line that yields a Diagnostic: it decodes to an object, its event
tag is `compiler-message`, its message field is a present object, and the
lowered severity of that object is in the closed enumeration. -/
def isGoodLine (l : JLine) : Bool :=
  match l with
  | .malformed => false
  | .nonObject => false
  | .record r =>
    decide (r.reason = some "compiler-message")
      && (match r.message with
          | some (.obj m) => (levelMap (strLower (m.level.getD ""))).isSome
          | _ => false)

/-- A line on which the per-line body raises `AttributeError` in the
source: a JSON-valid non-object line, or a `compiler-message` record whose
message field is present but not an object. -/
def crashLine (l : JLine) : Bool :=
  match l with
  | .malformed => false
  | .nonObject => true
  | .record r =>
    decide (r.reason = some "compiler-message")
      && (match r.message with
          | some .nonObject => true
          | _ => false)

/-- The Diagnostic a non-crashing line contributes, if any. -/
def okDiag (l : JLine) : Option BuildMessage :=
  match parse_json_line l with
  | .ok o => o
  | .error _ => none

/-- Whether an exceptional computation completed normally. -/
def exIsOk {ε α : Type} : Except ε α → Bool
  | .ok _ => true
  | .error _ => false

/-- A message object parses exactly when its lowered severity is in the
level map. -/
theorem parse_json_message_isSome (m : MsgJson) :
    (parse_json_message m).isSome
      = (levelMap (strLower (m.level.getD ""))).isSome := by
  cases m with
  | mk lv ms cd sp ch rd =>
    rw [parse_json_message_mk]
    simp only [MsgJson.level]
    rcases levelMap (strLower (lv.getD "")) with _ | l <;> simp

/-- On a crash line the per-line body raises. -/
theorem parse_json_line_crash (l : JLine) (h : crashLine l = true) :
    parse_json_line l = .error pyAttrErr := by
  cases l with
  | malformed => simp [crashLine] at h
  | nonObject => rfl
  | record r =>
    by_cases hr : r.reason = some "compiler-message"
    · rcases hm : r.message with _ | mf
      · simp [crashLine, hr, hm] at h
      · cases mf with
        | nonObject => simp [parse_json_line, hr, hm]
        | obj m => simp [crashLine, hr, hm] at h
    · simp [crashLine, hr] at h

/-- On a non-crash line the per-line body completes with its diagnostic. -/
theorem parse_json_line_ok (l : JLine) (h : crashLine l = false) :
    parse_json_line l = .ok (okDiag l) := by
  cases l with
  | malformed => rfl
  | nonObject => simp [crashLine] at h
  | record r =>
    by_cases hr : r.reason = some "compiler-message"
    · rcases hm : r.message with _ | mf
      · simp [parse_json_line, okDiag, hr, hm]
      · cases mf with
        | nonObject => simp [crashLine, hr, hm] at h
        | obj m => simp [parse_json_line, okDiag, hr, hm]
    · simp [parse_json_line, okDiag, hr]

/-- A non-crashing line contributes a Diagnostic exactly when it is good. -/
theorem okDiag_isSome (l : JLine) : (okDiag l).isSome = isGoodLine l := by
  cases l with
  | malformed => rfl
  | nonObject => rfl
  | record r =>
    by_cases hr : r.reason = some "compiler-message"
    · rcases hm : r.message with _ | mf
      · have h0 : levelMap (strLower ((MsgJson.empty.level).getD "")) = none := by decide
        simp [okDiag, parse_json_line, isGoodLine, hr, hm,
          parse_json_message_isSome, h0]
      · cases mf with
        | nonObject => simp [okDiag, parse_json_line, isGoodLine, hr, hm]
        | obj m =>
          simp [okDiag, parse_json_line, isGoodLine, hr, hm,
            parse_json_message_isSome]
    · simp [okDiag, parse_json_line, isGoodLine, hr]

/-- On a crash-free stream the parse completes, skipping every line that
contributes nothing and keeping the rest in input order. -/
theorem parse_json_output_ok_eq :
    ∀ lines : List JLine, (∀ l ∈ lines, crashLine l = false) →
      parse_json_output lines = .ok (lines.filterMap okDiag) := by
  intro lines
  induction lines with
  | nil => intro h; rfl
  | cons l ls ih =>
    intro h
    have hl : crashLine l = false := h l (by simp)
    have hls : ∀ x ∈ ls, crashLine x = false := fun x hx => h x (by simp [hx])
    have hline : parse_json_line l = .ok (okDiag l) := parse_json_line_ok l hl
    rcases hd : okDiag l with _ | bm
    · rw [hd] at hline
      simp only [parse_json_output, hline]
      rw [ih hls]
      simp [List.filterMap_cons, hd]
    · rw [hd] at hline
      simp only [parse_json_output, hline]
      rw [ih hls]
      simp [List.filterMap_cons, hd]

/-- The first crash line aborts the whole parse; everything gathered from
the crash-free prefix is discarded with it. -/
theorem parse_json_output_abort :
    ∀ (pre : List JLine), (∀ x ∈ pre, crashLine x = false) →
      ∀ (l : JLine), crashLine l = true → ∀ rest : List JLine,
        parse_json_output (pre ++ l :: rest) = .error pyAttrErr := by
  intro pre
  induction pre with
  | nil =>
    intro hpre l hl rest
    have hline := parse_json_line_crash l hl
    simp only [List.nil_append, parse_json_output, hline]
  | cons p ps ih =>
    intro hpre l hl rest
    have hp : crashLine p = false := hpre p (by simp)
    have hps : ∀ x ∈ ps, crashLine x = false := fun x hx => hpre x (by simp [hx])
    have hline : parse_json_line p = .ok (okDiag p) := parse_json_line_ok p hp
    have hsplit : (p :: ps) ++ l :: rest = p :: (ps ++ l :: rest) := rfl
    rw [hsplit]
    rcases hd : okDiag p with _ | bm
    · rw [hd] at hline
      simp only [parse_json_output, hline]
      exact ih hps l hl rest
    · rw [hd] at hline
      simp only [parse_json_output, hline]
      rw [ih hps l hl rest]

/-- The decoded record of one valid `compiler-message` line. -/
def exGoodRecord : JLine :=
  .record { reason := some "compiler-message"
            message := some (.obj (.mk (some "error") (some "boom")
              (some { code := some "E0001" }) [] [] (some "error[E0001]: boom"))) }

/-- The Diagnostic parsed from `exGoodRecord`. -/
def exGoodDiag : BuildMessage :=
  .mk .error "boom" (some "E0001") [] [] (some "error[E0001]: boom")

/-- A `compiler-message` record whose message field is a present
non-object (for example null): `_parse_json_message` raises on it. -/
def nullMsgRecord : JLine :=
  .record { reason := some "compiler-message", message := some MessageField.nonObject }

/-- A record with a non-`compiler-message` event tag: skipped. -/
def progressRecord : JLine :=
  .record { reason := some "build-finished", message := none }

/-- C3 (counterexample): only the JSON-decode failure path is
skip-and-continue.  A JSON-valid non-object line interleaved with one
valid record aborts the whole parse with an `AttributeError` and yields no
Diagnostic at all (not one), and so does a `compiler-message` record whose
message field is a present non-object such as null; whereas a JSON-malformed
line interleaved with the same record does yield exactly one Diagnostic. -/
theorem structured_skip_counterexample :
    parse_json_output [JLine.nonObject, exGoodRecord] = .error pyAttrErr ∧
    parse_json_output [nullMsgRecord] = .error pyAttrErr ∧
    parse_json_output [JLine.malformed, exGoodRecord] = .ok [exGoodDiag] := by
  refine ⟨rfl, rfl, ?_⟩
  have hlv : levelMap (strLower "error") = some MessageLevel.error := by decide
  simp only [parse_json_output, parse_json_line, exGoodRecord]
  simp [parse_json_message_mk, hlv, exGoodDiag]

/-- C3 (amended): the per-line body completes exactly on non-crash lines
(it raises `AttributeError` on a JSON-valid non-object line and on a
`compiler-message` record whose message field is a present non-object);
a completing line contributes exactly one Diagnostic when it has the
`compiler-message` tag, an object message and an in-enumeration severity;
on a crash-free stream — in particular one whose bad lines are all
JSON-malformed — the parse returns the good lines' Diagnostics in input
order, one per good line, with no sorting or deduplication; but the first
crash line aborts the whole parse, discarding even the Diagnostics
collected before it. -/
theorem structured_stream_amended :
    (∀ l : JLine, exIsOk (parse_json_line l) = !crashLine l) ∧
    (∀ l : JLine, (okDiag l).isSome = isGoodLine l) ∧
    (∀ lines : List JLine,
      (lines.filterMap okDiag).length = (lines.filter isGoodLine).length) ∧
    (∀ lines : List JLine, (∀ l ∈ lines, crashLine l = false) →
      parse_json_output lines = .ok (lines.filterMap okDiag)) ∧
    (∀ (pre : List JLine) (l : JLine) (rest : List JLine),
      (∀ x ∈ pre, crashLine x = false) → crashLine l = true →
      parse_json_output (pre ++ l :: rest) = .error pyAttrErr) := by
  refine ⟨?_, okDiag_isSome, ?_, parse_json_output_ok_eq, ?_⟩
  · intro l
    cases hcl : crashLine l
    · rw [parse_json_line_ok l hcl]
      rfl
    · rw [parse_json_line_crash l hcl]
      rfl
  · intro lines
    induction lines with
    | nil => rfl
    | cons l ls ih =>
      rw [List.filterMap_cons, List.filter_cons]
      have hiff := okDiag_isSome l
      rcases hd : okDiag l with _ | bm
      · rw [hd] at hiff
        simp only [Option.isSome_none] at hiff
        simp [← hiff, ih]
      · rw [hd] at hiff
        simp only [Option.isSome_some] at hiff
        simp [← hiff, ih]
  · intro pre l rest hpre hl
    exact parse_json_output_abort pre hpre l hl rest

/-- Witness for the amended C3 at concrete streams. -/
theorem structured_stream_amended_witness :
    parse_json_output [JLine.malformed, progressRecord, exGoodRecord]
      = .ok ([JLine.malformed, progressRecord, exGoodRecord].filterMap okDiag) ∧
    parse_json_output [exGoodRecord, JLine.nonObject, JLine.malformed]
      = .error pyAttrErr := by
  constructor
  · exact structured_stream_amended.2.2.2.1 _ (by decide)
  · exact structured_stream_amended.2.2.2.2 [exGoodRecord] JLine.nonObject
      [JLine.malformed] (by decide) rfl

/-! ## Claim about the text parser's line/state behaviour -/

/-- A line matching the diagnostic-header pattern. -/
def isHeaderLine (l : String) : Bool := (matchHeader l.data).isSome

/-- The point CodeSpan contributed by a line, when it matches the location
pattern. -/
def locSpanOf (l : String) : Option CodeSpan :=
  (matchLocation l.data).map fun x => pointSpan x.1 x.2.1 x.2.2

/-- The loop emits one message per header line, plus the one being
collected. -/
theorem humanGo_length (lines : List String) :
    ∀ (cur : Option PartialMsg) (acc : List String),
      (humanGo cur acc lines).length
        = (lines.filter isHeaderLine).length
          + (match cur with | none => 0 | some _ => 1) := by
  induction lines with
  | nil =>
    intro cur acc
    cases cur <;> simp [humanGo]
  | cons l ls ih =>
    intro cur acc
    rcases hh : matchHeader l.data with _ | ⟨kw, code, msg⟩ <;>
      have hhl : isHeaderLine l = ((matchHeader l.data).isSome) := rfl
    · simp only [humanGo, hh]
      rw [hh] at hhl
      cases cur with
      | none => simp [List.filter_cons, hhl, ih]
      | some p =>
        rcases hloc : matchLocation l.data with _ | ⟨f, ln, col⟩ <;>
          simp [hloc, List.filter_cons, hhl, ih]
    · simp only [humanGo, hh]
      rw [hh] at hhl
      cases cur with
      | none => simp [List.filter_cons, hhl, ih]
      | some p => simp [List.filter_cons, hhl, ih]

/-- Every message emitted by the loop has no children. -/
theorem humanGo_children (lines : List String) :
    ∀ (cur : Option PartialMsg) (acc : List String) (bm : BuildMessage),
      bm ∈ humanGo cur acc lines → bm.children = [] := by
  induction lines with
  | nil =>
    intro cur acc bm hmem
    cases cur with
    | none => simp [humanGo] at hmem
    | some p =>
      simp only [humanGo, List.mem_singleton] at hmem
      subst hmem
      rfl
  | cons l ls ih =>
    intro cur acc bm hmem
    rcases hh : matchHeader l.data with _ | ⟨kw, code, msg⟩
    · simp only [humanGo, hh] at hmem
      cases cur with
      | none => exact ih none acc bm hmem
      | some p =>
        rcases hloc : matchLocation l.data with _ | ⟨f, ln, col⟩ <;>
          · simp only [hloc] at hmem
            exact ih _ _ bm hmem
    · simp only [humanGo, hh] at hmem
      cases cur with
      | none => exact ih _ _ bm hmem
      | some p =>
        rcases List.mem_cons.mp hmem with rfl | hmem2
        · rfl
        · exact ih _ _ bm hmem2

/-- Spans with equal start and end line/column. -/
def pointShaped (sp : CodeSpan) : Prop :=
  sp.line_start = sp.line_end ∧ sp.column_start = sp.column_end

/-- Every span of every emitted message is a point span, provided the
in-progress message only carries point spans. -/
theorem humanGo_spans_point (lines : List String) :
    ∀ (cur : Option PartialMsg) (acc : List String) (bm : BuildMessage),
      (∀ p, cur = some p → ∀ sp ∈ p.spans, pointShaped sp) →
      bm ∈ humanGo cur acc lines → ∀ sp ∈ bm.spans, pointShaped sp := by
  induction lines with
  | nil =>
    intro cur acc bm hcur hmem
    cases cur with
    | none => simp [humanGo] at hmem
    | some p =>
      simp only [humanGo, List.mem_singleton] at hmem
      subst hmem
      exact hcur p rfl
  | cons l ls ih =>
    intro cur acc bm hcur hmem
    rcases hh : matchHeader l.data with _ | ⟨kw, code, msg⟩
    · simp only [humanGo, hh] at hmem
      cases cur with
      | none => exact ih none acc bm (by simp) hmem
      | some p =>
        rcases hloc : matchLocation l.data with _ | ⟨f, ln, col⟩
        · simp only [hloc] at hmem
          refine ih _ _ bm ?_ hmem
          rintro q hq
          rw [Option.some.injEq] at hq
          subst hq
          exact hcur p rfl
        · simp only [hloc] at hmem
          refine ih _ _ bm ?_ hmem
          rintro q hq
          rw [Option.some.injEq] at hq
          subst hq
          intro sp hsp
          rcases List.mem_append.mp hsp with hsp1 | hsp2
          · exact hcur p rfl sp hsp1
          · rw [List.mem_singleton] at hsp2
            subst hsp2
            exact ⟨rfl, rfl⟩
    · simp only [humanGo, hh] at hmem
      have hnew : ∀ q : PartialMsg,
          some (⟨hdrLevel kw, msg, code, []⟩ : PartialMsg) = some q →
            ∀ sp ∈ q.spans, pointShaped sp := by
        rintro q hq
        rw [Option.some.injEq] at hq
        subst hq
        simp
      cases cur with
      | none => exact ih _ _ bm hnew hmem
      | some p =>
        rcases List.mem_cons.mp hmem with rfl | hmem2
        · exact hcur p rfl
        · exact ih _ _ bm hnew hmem2

/-- While no line matches the header pattern, the loop only accumulates:
location lines append their point span, every line joins the rendered
block, and end of input finalizes the collected message. -/
theorem humanGo_no_header :
    ∀ (lines : List String), (∀ l ∈ lines, matchHeader l.data = none) →
      ∀ (p : PartialMsg) (acc : List String),
        humanGo (some p) acc lines
          = [finalizeMsg { p with spans := p.spans ++ lines.filterMap locSpanOf }
              (acc ++ lines)] := by
  intro lines
  induction lines with
  | nil =>
    intro hnh p acc
    simp [humanGo]
  | cons l ls ih =>
    intro hnh p acc
    have hl : matchHeader l.data = none := hnh l (by simp)
    have hls : ∀ l' ∈ ls, matchHeader l'.data = none :=
      fun l' h' => hnh l' (by simp [h'])
    simp only [humanGo, hl]
    rcases hloc : matchLocation l.data with _ | ⟨f, ln, col⟩
    · simp only [hloc]
      rw [ih hls p (acc ++ [l])]
      have hspan : locSpanOf l = none := by simp [locSpanOf, hloc]
      simp [List.filterMap_cons, hspan, List.append_assoc]
    · simp only [hloc]
      rw [ih hls { p with spans := p.spans ++ [pointSpan f ln col] } (acc ++ [l])]
      have hspan : locSpanOf l = some (pointSpan f ln col) := by
        simp [locSpanOf, hloc]
      simp [List.filterMap_cons, hspan, List.append_assoc]

/-- A run of non-header lines followed by a header line finalizes the
collected message (with the run's point spans and rendered block) and
starts collecting the new header. -/
theorem humanGo_segment :
    ∀ (seg : List String), (∀ l ∈ seg, matchHeader l.data = none) →
      ∀ (hl : String) (rest : List String) (kw : String) (code : Option String)
        (msg : String), matchHeader hl.data = some (kw, code, msg) →
      ∀ (p : PartialMsg) (acc : List String),
        humanGo (some p) acc (seg ++ hl :: rest)
          = finalizeMsg { p with spans := p.spans ++ seg.filterMap locSpanOf }
              (acc ++ seg)
            :: humanGo (some ⟨hdrLevel kw, msg, code, []⟩) [hl] rest := by
  intro seg
  induction seg with
  | nil =>
    intro hnh hl rest kw code msg hh p acc
    simp only [List.nil_append, humanGo, hh]
    simp
  | cons l ls ih =>
    intro hnh hl rest kw code msg hh p acc
    have hlnone : matchHeader l.data = none := hnh l (by simp)
    have hls : ∀ l' ∈ ls, matchHeader l'.data = none :=
      fun l' h' => hnh l' (by simp [h'])
    have hsplit : (l :: ls) ++ hl :: rest = l :: (ls ++ hl :: rest) := rfl
    rw [hsplit]
    simp only [humanGo, hlnone]
    rcases hloc : matchLocation l.data with _ | ⟨f, ln, col⟩
    · simp only [hloc]
      rw [ih hls hl rest kw code msg hh p (acc ++ [l])]
      have hspan : locSpanOf l = none := by simp [locSpanOf, hloc]
      simp [List.filterMap_cons, hspan, List.append_assoc]
    · simp only [hloc]
      rw [ih hls hl rest kw code msg hh
        { p with spans := p.spans ++ [pointSpan f ln col] } (acc ++ [l])]
      have hspan : locSpanOf l = some (pointSpan f ln col) := by
        simp [locSpanOf, hloc]
      simp [List.filterMap_cons, hspan, List.append_assoc]

/-- C6: every line matching the header pattern yields exactly one
Diagnostic (count equality); every text-derived Diagnostic is top-level
with an empty child list and only point spans (start = end); and a header
followed by non-header lines — up to the next header or end of input —
yields exactly one Diagnostic whose span list has one point span per
location-matching line in order, whose rendered block joins the segment's
raw lines, finalized at the next header or at end of input. -/
theorem text_parser_contract :
    (∀ lines : List String,
      (parseHumanLines lines).length = (lines.filter isHeaderLine).length) ∧
    (∀ (lines : List String) (bm : BuildMessage),
      bm ∈ parseHumanLines lines → bm.children = []) ∧
    (∀ (lines : List String) (bm : BuildMessage),
      bm ∈ parseHumanLines lines → ∀ sp ∈ bm.spans,
        sp.line_start = sp.line_end ∧ sp.column_start = sp.column_end) ∧
    (∀ (hl : String) (rest : List String) (kw : String) (code : Option String)
        (msg : String),
      matchHeader hl.data = some (kw, code, msg) →
      (∀ l ∈ rest, matchHeader l.data = none) →
      parseHumanLines (hl :: rest)
        = [.mk (hdrLevel kw) msg code (rest.filterMap locSpanOf) []
            (some (String.intercalate "\n" (hl :: rest)))]) ∧
    (∀ (hl : String) (seg rest2 : List String) (hl2 : String) (kw : String)
        (code : Option String) (msg : String) (kw2 : String)
        (code2 : Option String) (msg2 : String),
      matchHeader hl.data = some (kw, code, msg) →
      (∀ l ∈ seg, matchHeader l.data = none) →
      matchHeader hl2.data = some (kw2, code2, msg2) →
      parseHumanLines (hl :: (seg ++ hl2 :: rest2))
        = .mk (hdrLevel kw) msg code (seg.filterMap locSpanOf) []
            (some (String.intercalate "\n" (hl :: seg)))
          :: parseHumanLines (hl2 :: rest2)) := by
  refine ⟨?_, ?_, ?_, ?_, ?_⟩
  · intro lines
    simpa using humanGo_length lines none []
  · intro lines bm hmem
    exact humanGo_children lines none [] bm hmem
  · intro lines bm hmem sp hsp
    exact humanGo_spans_point lines none [] bm (by simp) hmem sp hsp
  · intro hl rest kw code msg hh hno
    simp only [parseHumanLines, humanGo, hh]
    rw [humanGo_no_header rest hno ⟨hdrLevel kw, msg, code, []⟩ [hl]]
    simp [finalizeMsg]
  · intro hl seg rest2 hl2 kw code msg kw2 code2 msg2 hh hno hh2
    simp only [parseHumanLines, humanGo, hh]
    rw [humanGo_segment seg hno hl2 rest2 kw2 code2 msg2 hh2
      ⟨hdrLevel kw, msg, code, []⟩ [hl]]
    simp only [humanGo, hh2]
    simp [finalizeMsg]

/-- Witness for C6 at a concrete two-segment input. -/
theorem text_parser_contract_witness :
    parseHumanLines ["error[E0425]: boom", " --> a.rs:3:5"]
      = [.mk .error "boom" (some "E0425") [pointSpan "a.rs" 3 5] []
          (some "error[E0425]: boom\n --> a.rs:3:5")] := by
  have h := text_parser_contract.2.2.2.1 "error[E0425]: boom" [" --> a.rs:3:5"]
    "error" (some "E0425") "boom" (by decide) (by decide)
  simpa using h
